/-
  Verification of the media-lightbox controller in
  src/components/MediaPreview.tsx.

  The controller logic is shallowly embedded:

  * resolveIndex embeds allMediaIds.indexOf(mediaId): first position or -1,
    as Array.prototype.indexOf of JavaScript.
  * nextIndex embeds the index arithmetic of handleNavigate (the JavaScript
    percent operator is a truncated remainder, hence Int.tmod).
  * handleNavigate embeds the whole navigation handler, returning the new
    component state together with the direction forwarded to the optional
    onNavigate delegate (none when the delegate is not invoked).
  * runEffect embeds the body of the useEffect with dependency list
    [mediaId, allMediaIds]: it resolves the index, sets the loading flag and
    issues a metadata fetch whose continuations capture the current mediaId.
    Outstanding fetches are kept in a list; a settle event delivers the
    then/catch continuation of one of them.  Faithful to the source, a
    settlement applies its result unconditionally: there is no staleness
    comparison against the current mediaId.
  * isVideoMatch embeds the video test on currentMediaInfo, the regular
    expression match of a trailing dot followed by mp4, webm, ogg or mov,
    case-insensitive and anchored at the end.

  The event loop is single-threaded (one React render/effect/microtask
  queue), so all interleavings are exactly the event traces of the step
  function.  React compares effect dependencies by reference; we model the
  observable abstraction where a dependency change is a value change (a
  re-run with identical values only re-issues a fetch for the same
  identifier and does not affect any statement below).
-/
import Mathlib

namespace MediaPreview

/-- Direction of navigation, prev or next in the source. -/
inductive Direction where
  | prev
  | next
deriving DecidableEq, Repr

/-- The metadata record fetched for a media identifier; in the source it is
an object with the string fields alt and createdAt. -/
structure MediaInfo where
  alt : String
  createdAt : String
deriving DecidableEq, Repr

/-- The props of the MediaPreview component that the controller logic
reads: mediaId, allMediaIds and whether an onNavigate delegate is
configured.  (isOpen and onClose only drive scroll locking, keyboard
binding and rendering; they do not enter the state logic verified here.) -/
structure Props where
  mediaId : Option String
  allMediaIds : List String
  hasDelegate : Bool
deriving DecidableEq, Repr

/-- A metadata fetch that has been issued but has not settled yet.  The
target field is the identifier captured by the fetchMediaInfo(mediaId)
closure at issue time; fid distinguishes distinct requests. -/
structure Fetch where
  fid : Nat
  target : String
deriving DecidableEq, Repr

/-- The component state: the three useState cells of MediaPreview, plus
the book-keeping of outstanding fetches (pending, in issue order, with
nextFid the next fresh request id). -/
structure State where
  currentIndex : Int
  currentMediaInfo : Option MediaInfo
  isLoading : Bool
  pending : List Fetch
  nextFid : Nat
deriving DecidableEq, Repr

/-- A configuration: current props plus current component state. -/
structure Config where
  props : Props
  state : State
deriving DecidableEq, Repr

/-- Embeds allMediaIds.indexOf(mediaId): the first position of id in l, or
-1 when id does not occur (in particular on the empty list). -/
def resolveIndex (id : String) : List String → Int
  | [] => -1
  | x :: xs =>
    if x = id then 0
    else
      let r := resolveIndex id xs
      if r = -1 then -1 else r + 1

/-- Embeds the index arithmetic of handleNavigate:
(currentIndex - 1 + length) mod length for prev and
(currentIndex + 1) mod length for next, where mod is the truncated
remainder of JavaScript (Int.tmod). -/
def nextIndex (i : Int) (d : Direction) (len : Nat) : Int :=
  match d with
  | .prev => Int.tmod (i - 1 + len) len
  | .next => Int.tmod (i + 1) len

/-- Embeds handleNavigate(direction).  Returns the state after the call
together with some direction when the onNavigate delegate was invoked.
The guard returns early when the collection is empty or the index is -1.
When a delegate is configured it is invoked and the index is left
untouched; otherwise the freshly computed index is adopted via
setCurrentIndex. -/
def handleNavigate (hasDelegate : Bool) (allMediaIds : List String)
    (s : State) (d : Direction) : State × Option Direction :=
  if allMediaIds.length = 0 ∨ s.currentIndex = -1 then (s, none)
  else
    let newIndex := nextIndex s.currentIndex d allMediaIds.length
    if hasDelegate then (s, some d)
    else ({ s with currentIndex := newIndex }, none)

/-- Embeds the body of the useEffect with dependencies
[mediaId, allMediaIds].  The guard treats both a null mediaId and the
empty string as falsy.  When it fires it resolves the index, sets the
loading flag to true and issues one metadata fetch whose continuations
capture the current mediaId. -/
def runEffect (p : Props) (s : State) : State :=
  match p.mediaId with
  | none => s
  | some id =>
    if id ≠ "" ∧ p.allMediaIds.length ≠ 0 then
      { currentIndex := resolveIndex id p.allMediaIds
        currentMediaInfo := s.currentMediaInfo
        isLoading := true
        pending := s.pending ++ [⟨s.nextFid, id⟩]
        nextFid := s.nextFid + 1 }
    else s

/-- Outcome of a metadata fetch: fetchMediaInfo resolves with a MediaInfo,
or rejects (the catch branch), at which point the current time is read as
the string now. -/
inductive Outcome where
  | success (info : MediaInfo)
  | failure (now : String)
deriving DecidableEq, Repr

/-- An event of the single-threaded loop: a props change (React re-render;
the effect re-runs when mediaId or allMediaIds changed), settlement of an
outstanding fetch, or a navigation intent (keyboard or button). -/
inductive Event where
  | setProps (p : Props)
  | settle (fid : Nat) (o : Outcome)
  | navigate (d : Direction)
deriving DecidableEq, Repr

/-- Props change: the effect re-runs exactly when one of its dependencies
mediaId, allMediaIds changed. -/
def stepSetProps (c : Config) (p : Props) : Config :=
  if p.mediaId = c.props.mediaId ∧ p.allMediaIds = c.props.allMediaIds then
    { props := p, state := c.state }
  else
    { props := p, state := runEffect p c.state }

/-- Settlement of the outstanding fetch fid.  Faithful to the source, the
then/catch continuations update currentMediaInfo and clear the loading
flag unconditionally; they never compare the captured identifier with the
current mediaId.  On rejection the fallback metadata with label
"Media " ++ target and the current time is synthesized from the captured
identifier; the rejection is swallowed after a console log, so no
exception escapes. -/
def stepSettle (c : Config) (fid : Nat) (o : Outcome) : Config :=
  match c.state.pending.find? (fun g => g.fid == fid) with
  | none => c
  | some f =>
    let rest := c.state.pending.filter (fun g => g.fid ≠ fid)
    match o with
    | .success info =>
      { c with state :=
          { c.state with
            currentMediaInfo := some info
            isLoading := false
            pending := rest } }
    | .failure now =>
      { c with state :=
          { c.state with
            currentMediaInfo := some ⟨"Media " ++ f.target, now⟩
            isLoading := false
            pending := rest } }

/-- Navigation event: runs handleNavigate; the forwarded direction (if
any) goes to the external delegate and does not touch this component. -/
def stepNavigate (c : Config) (d : Direction) : Config :=
  { c with
    state := (handleNavigate c.props.hasDelegate c.props.allMediaIds c.state d).1 }

/-- One turn of the event loop. -/
def step (c : Config) : Event → Config
  | .setProps p => stepSetProps c p
  | .settle fid o => stepSettle c fid o
  | .navigate d => stepNavigate c d

/-- The useState initial values: index -1, no metadata, not loading. -/
def initState : State :=
  { currentIndex := -1
    currentMediaInfo := none
    isLoading := false
    pending := []
    nextFid := 0 }

/-- Mounting the component with props p: the effect runs once on mount. -/
def mkInit (p : Props) : Config :=
  { props := p, state := runEffect p initState }

/-- Running a trace of events. -/
def run (c : Config) : List Event → Config
  | [] => c
  | e :: es => run (step c e) es

/-- The reachable configurations: a mount followed by any event trace. -/
inductive Reachable : Config → Prop where
  | init (p : Props) : Reachable (mkInit p)
  | next (c : Config) (e : Event) : Reachable c → Reachable (step c e)

/-- Embeds the derivation of the displayed identifier: allMediaIds at
currentIndex when the index is not -1 and the subscript yields a truthy
value, else the mediaId prop (an out-of-range or negative subscript is
undefined in JavaScript, and the empty string is falsy, so both fall back
to mediaId). -/
def currentId (c : Config) : Option String :=
  if c.state.currentIndex = -1 then c.props.mediaId
  else
    match (if 0 ≤ c.state.currentIndex
           then c.props.allMediaIds[c.state.currentIndex.toNat]?
           else none) with
    | some x => if x = "" then c.props.mediaId else some x
    | none => c.props.mediaId

/-- The video extensions of the alternation in the regular expression,
each with the preceding literal dot, as character lists. -/
def videoExts : List (List Char) :=
  [".mp4".data, ".webm".data, ".ogg".data, ".mov".data]

/-- Case-insensitive character comparison, the effect of the i flag on the
letters of the pattern. -/
def charCI (a b : Char) : Bool := a.toLower == b.toLower

/-- Anchored-at-end, case-insensitive match: s ends with the pattern p
under case-insensitive comparison. -/
def endsWithCI (s p : List Char) : Bool :=
  decide (p.length ≤ s.length) &&
    (List.zipWith charCI (s.drop (s.length - p.length)) p).all id

/-- Embeds the regular-expression test on the metadata label, viewed as a
Boolean (the source uses the truthiness of the match result to pick the
video branch of the renderer). -/
def isVideoMatch (label : String) : Bool :=
  videoExts.any (fun e => endsWithCI label.data e)

/-- The invariant exactly as claim C2 states it: the stored index equals
the first position of the active identifier in the collection, and is -1
when the identifier is null (resolveIndex already returns -1 when the
identifier is absent). -/
def invClaimB (c : Config) : Bool :=
  match c.props.mediaId with
  | some id => c.state.currentIndex == resolveIndex id c.props.allMediaIds
  | none => c.state.currentIndex == -1

/-- The amended invariant: whenever the active identifier is a non-null,
non-empty string and the collection is non-empty, the stored index equals
the first position of the identifier in the collection (-1 if absent).
With a null identifier, an empty-string identifier or an empty collection
the effect does not fire and the stored index may keep a stale value. -/
def invAmendedB (c : Config) : Bool :=
  match c.props.mediaId with
  | none => true
  | some id =>
    id == "" || c.props.allMediaIds.length == 0 ||
      c.state.currentIndex == resolveIndex id c.props.allMediaIds

/-- The effect establishes the amended invariant, whatever the previous
state was. -/
theorem runEffect_inv (p : Props) (s : State) :
    invAmendedB ⟨p, runEffect p s⟩ = true := by
  cases hm : p.mediaId with
  | none => simp [invAmendedB, runEffect, hm]
  | some id =>
    simp only [invAmendedB, runEffect, hm]
    split
    · simp
    · next hcond =>
      rw [Bool.or_eq_true, Bool.or_eq_true]
      rcases not_and_or.mp hcond with h | h
      · exact Or.inl (Or.inl (beq_iff_eq.mpr (not_not.mp h)))
      · exact Or.inl (Or.inr (beq_iff_eq.mpr (not_not.mp h)))

/-- The amended invariant only reads the identifier, the collection and
the stored index. -/
theorem invAmendedB_eq (c' c : Config)
    (hm : c'.props.mediaId = c.props.mediaId)
    (ha : c'.props.allMediaIds = c.props.allMediaIds)
    (hi : c'.state.currentIndex = c.state.currentIndex) :
    invAmendedB c' = invAmendedB c := by
  unfold invAmendedB
  rw [hm, ha, hi]

/-- Fetch settlement leaves the props untouched. -/
theorem stepSettle_props (c : Config) (fid : Nat) (o : Outcome) :
    (stepSettle c fid o).props = c.props := by
  cases hf : c.state.pending.find? (fun g => g.fid == fid) with
  | none => simp [stepSettle, hf]
  | some f => cases o <;> simp [stepSettle, hf]

/-- Fetch settlement leaves the stored index untouched. -/
theorem stepSettle_index (c : Config) (fid : Nat) (o : Outcome) :
    (stepSettle c fid o).state.currentIndex = c.state.currentIndex := by
  cases hf : c.state.pending.find? (fun g => g.fid == fid) with
  | none => simp [stepSettle, hf]
  | some f => cases o <;> simp [stepSettle, hf]

/-- Claim C1: the claim demands the staleness guard of the specification,
and the code does not have it.  This theorem evaluates the code at the
failing input: open with identifier A over the collection [A, B, C] (the
fetch for A is issued), change the identifier to C (the fetch for C is
issued), let the fetch for C settle first and the late fetch for A settle
afterwards.  The displayed metadata ends up being the metadata of A even
though the current active identifier is C: the settlement continuations
of the source update the state unconditionally, so the last settlement
wins regardless of which identifier is current. -/
theorem stale_fetch_last_write_wins :
    (run (mkInit ⟨some "A", ["A", "B", "C"], false⟩)
       [.setProps ⟨some "C", ["A", "B", "C"], false⟩,
        .settle 1 (.success ⟨"C-label", "tC"⟩),
        .settle 0 (.success ⟨"A-label", "tA"⟩)]).props.mediaId = some "C" ∧
    (run (mkInit ⟨some "A", ["A", "B", "C"], false⟩)
       [.setProps ⟨some "C", ["A", "B", "C"], false⟩,
        .settle 1 (.success ⟨"C-label", "tC"⟩),
        .settle 0 (.success ⟨"A-label", "tA"⟩)]).state.currentMediaInfo
      = some ⟨"A-label", "tA"⟩ :=
  ⟨rfl, rfl⟩

/-- Claim C2, counterexample: the invariant exactly as claimed fails in
reachable states.  First violation: over the collection [a, b] with
identifier a, a self-managed navigate(next) moves the stored index to 1
while the first position of a is 0 (the identifier prop is not updated by
the component).  Second violation: when the identifier prop becomes null
the effect does not fire, so the stored index keeps the value 0 instead
of returning to -1. -/
theorem index_invariant_counterexample :
    (Reachable (step (mkInit ⟨some "a", ["a", "b"], false⟩) (.navigate .next)) ∧
      invClaimB (step (mkInit ⟨some "a", ["a", "b"], false⟩) (.navigate .next))
        = false) ∧
    (Reachable (step (mkInit ⟨some "a", ["a"], false⟩)
        (.setProps ⟨none, ["a"], false⟩)) ∧
      invClaimB (step (mkInit ⟨some "a", ["a"], false⟩)
        (.setProps ⟨none, ["a"], false⟩)) = false) :=
  ⟨⟨Reachable.next _ _ (Reachable.init _), by decide⟩,
   ⟨Reachable.next _ _ (Reachable.init _), by decide⟩⟩

/-- Claim C2 (amended): whenever the active identifier is a non-null,
non-empty string and the collection is non-empty, the stored index equals
the first position of the identifier in the collection (or -1 when it is
absent).  This holds after mount, and it is preserved by every props
change, by every fetch settlement and by navigation in delegate mode; the
two reachable-state violations of the unamended claim are self-managed
navigation (which moves the stored index while the identifier prop stays)
and the null-identifier / empty-collection states (where the stored index
keeps its previous value instead of resetting to -1). -/
theorem index_invariant_amended (p : Props) (c : Config) (e : Event)
    (hInv : invAmendedB c = true)
    (hNav : ∀ d, e = Event.navigate d → c.props.hasDelegate = true) :
    invAmendedB (mkInit p) = true ∧ invAmendedB (step c e) = true := by
  refine ⟨runEffect_inv p initState, ?_⟩
  cases e with
  | setProps p' =>
    show invAmendedB (stepSetProps c p') = true
    unfold stepSetProps
    split
    · next hsame =>
      exact (invAmendedB_eq ⟨p', c.state⟩ c hsame.1 hsame.2 rfl).trans hInv
    · exact runEffect_inv p' c.state
  | settle fid o =>
    show invAmendedB (stepSettle c fid o) = true
    refine (invAmendedB_eq _ c ?_ ?_ ?_).trans hInv
    · rw [stepSettle_props]
    · rw [stepSettle_props]
    · exact stepSettle_index c fid o
  | navigate d =>
    have hd : c.props.hasDelegate = true := hNav d rfl
    show invAmendedB (stepNavigate c d) = true
    have hfix : stepNavigate c d = c := by
      unfold stepNavigate handleNavigate
      rw [hd]
      split <;> rfl
    rw [hfix]
    exact hInv

/-- Witness for the amended claim C2, at a mount with identifier m2 over
[m1, m2, m3] and a delegate-mode navigation step from a mount with
identifier m1 over [m1, m2]. -/
theorem index_invariant_amended_witness :
    invAmendedB (mkInit ⟨some "m2", ["m1", "m2", "m3"], false⟩) = true ∧
    invAmendedB (step (mkInit ⟨some "m1", ["m1", "m2"], true⟩)
      (.navigate .next)) = true :=
  index_invariant_amended ⟨some "m2", ["m1", "m2", "m3"], false⟩
    (mkInit ⟨some "m1", ["m1", "m2"], true⟩) (.navigate .next)
    (by decide) (fun _ _ => rfl)

/-- Claim C3: the claim says the loading flag stays true while the load
for the current identifier is outstanding and becomes false exactly once
for that identifier; the code violates it.  Failing input: open with
identifier A over [A, B] (fetch 0 for A is issued), change the identifier
to B (fetch 1 for B is issued), then let the stale fetch for A settle.
The settlement clears the loading flag unconditionally, so the state below
has the loading flag false while the fetch for the current identifier B is
still outstanding (fetch 1 is still pending). -/
theorem stale_settlement_clears_loading_flag :
    (run (mkInit ⟨some "A", ["A", "B"], false⟩)
       [.setProps ⟨some "B", ["A", "B"], false⟩,
        .settle 0 (.success ⟨"A-label", "tA"⟩)]).props.mediaId = some "B" ∧
    (run (mkInit ⟨some "A", ["A", "B"], false⟩)
       [.setProps ⟨some "B", ["A", "B"], false⟩,
        .settle 0 (.success ⟨"A-label", "tA"⟩)]).state.pending = [⟨1, "B"⟩] ∧
    (run (mkInit ⟨some "A", ["A", "B"], false⟩)
       [.setProps ⟨some "B", ["A", "B"], false⟩,
        .settle 0 (.success ⟨"A-label", "tA"⟩)]).state.isLoading = false :=
  ⟨rfl, rfl, rfl⟩

/-- Claim C4: for every index in [0, length) over a non-empty collection,
the navigation step computes prev as (i - 1 + length) mod length and next
as (i + 1) mod length (mathematical modulus), so wraparound is circular at
both ends: prev from 0 yields length - 1 and next from length - 1 yields
0, with no clamping and no error. -/
theorem nextIndex_wraparound (len : Nat) (i : Int)
    (h0 : 0 < len) (h1 : 0 ≤ i) (h2 : i < len) :
    nextIndex i .prev len = (i - 1 + len) % len ∧
    nextIndex i .next len = (i + 1) % len ∧
    nextIndex 0 .prev len = (len : Int) - 1 ∧
    nextIndex ((len : Int) - 1) .next len = 0 := by
  have hlen : (0 : Int) < (len : Int) := by exact_mod_cast h0
  refine ⟨?_, ?_, ?_, ?_⟩
  · exact Int.tmod_eq_emod (by omega) (by omega)
  · exact Int.tmod_eq_emod (by omega) (by omega)
  · show Int.tmod (0 - 1 + len) len = (len : Int) - 1
    rw [Int.tmod_eq_emod (by omega) (by omega)]
    rw [Int.emod_eq_of_lt (by omega) (by omega)]
    omega
  · show Int.tmod ((len : Int) - 1 + 1) len = 0
    have h : (len : Int) - 1 + 1 = len := by omega
    rw [h, Int.tmod_eq_emod (by omega) (by omega), Int.emod_self]

/-- Witness for claim C4 at index 1 over a collection of length 3. -/
theorem nextIndex_wraparound_witness :
    0 < 3 ∧ (0 : Int) ≤ 1 ∧ (1 : Int) < 3 ∧
    (nextIndex 1 .prev 3 = (1 - 1 + 3) % 3 ∧
     nextIndex 1 .next 3 = (1 + 1) % 3 ∧
     nextIndex 0 .prev 3 = (3 : Int) - 1 ∧
     nextIndex ((3 : Int) - 1) .next 3 = 0) :=
  ⟨by decide, by decide, by decide,
   nextIndex_wraparound 3 1 (by decide) (by decide) (by decide)⟩

/-- Claim C5: navigation is invertible.  For every length > 0 and every
index i in [0, length), stepping next and then prev returns i. -/
theorem nextIndex_invertible (len : Nat) (i : Int)
    (h0 : 0 < len) (h1 : 0 ≤ i) (h2 : i < len) :
    nextIndex (nextIndex i .next len) .prev len = i := by
  have hlen : (0 : Int) < (len : Int) := by exact_mod_cast h0
  show Int.tmod (Int.tmod (i + 1) len - 1 + len) len = i
  by_cases hc : i + 1 < (len : Int)
  · have hin : Int.tmod (i + 1) (len : Int) = i + 1 := by
      rw [Int.tmod_eq_emod (by omega) (by omega)]
      exact Int.emod_eq_of_lt (by omega) hc
    rw [hin, show i + 1 - 1 + (len : Int) = i + len from by omega,
      Int.tmod_eq_emod (by omega) (by omega), Int.add_emod_self,
      Int.emod_eq_of_lt h1 h2]
  · have hin : Int.tmod (i + 1) (len : Int) = 0 := by
      rw [show i + 1 = (len : Int) from by omega,
        Int.tmod_eq_emod (by omega) (by omega), Int.emod_self]
    rw [hin, show (0 : Int) - 1 + len = len - 1 from by omega,
      Int.tmod_eq_emod (by omega) (by omega),
      Int.emod_eq_of_lt (by omega) (by omega)]
    omega

/-- Witness for claim C5 at index 2 over a collection of length 3 (the
wraparound case). -/
theorem nextIndex_invertible_witness :
    0 < 3 ∧ (0 : Int) ≤ 2 ∧ (2 : Int) < 3 ∧
    nextIndex (nextIndex 2 .next 3) .prev 3 = 2 :=
  ⟨by decide, by decide, by decide,
   nextIndex_invertible 3 2 (by decide) (by decide) (by decide)⟩

/-- Claim C6: index resolution returns the first position at which the
identifier occurs in the collection, and returns -1 when the identifier is
not present (in particular when the collection is empty). -/
theorem resolveIndex_first_position (id : String) (l : List String) :
    (resolveIndex id l = -1 ∧ ¬ id ∈ l) ∨
    (∃ n : Nat, resolveIndex id l = (n : Int) ∧ l[n]? = some id ∧
      ∀ m : Nat, m < n → l[m]? ≠ some id) := by
  induction l with
  | nil =>
    left
    exact ⟨rfl, by simp⟩
  | cons x xs ih =>
    by_cases hx : x = id
    · right
      refine ⟨0, ?_, ?_, ?_⟩
      · simp [resolveIndex, hx]
      · simp [hx]
      · intro m hm
        omega
    · rcases ih with ⟨hval, hmem⟩ | ⟨n, hn, hget, hfirst⟩
      · left
        constructor
        · simp [resolveIndex, hx, hval]
        · simp [hx, hmem]
          intro hc
          exact hx hc.symm
      · right
        refine ⟨n + 1, ?_, ?_, ?_⟩
        · simp only [resolveIndex, if_neg hx, hn]
          have h : ((n : Int)) ≠ -1 := by omega
          simp [h]
        · simpa using hget
        · intro m hm
          cases m with
          | zero =>
            simp
            intro hc
            exact hx hc
          | succ k =>
            simpa using hfirst k (by omega)

/-- Claim C7: on metadata fetch failure, the settlement synthesizes a
fallback MediaInfo whose label is derived from (and contains) the
identifier the fetch was issued for, with the current time as creation
timestamp, and clears the loading flag.  The catch handler is total (the
rejection is logged and swallowed), so the failure is never surfaced to
the renderer as an error. -/
theorem fetch_failure_fallback (c : Config) (fid : Nat) (f : Fetch)
    (now : String)
    (h : c.state.pending.find? (fun g => g.fid == fid) = some f) :
    (step c (.settle fid (.failure now))).state.currentMediaInfo
        = some ⟨"Media " ++ f.target, now⟩ ∧
    (step c (.settle fid (.failure now))).state.isLoading = false ∧
    ∃ pre post : String, "Media " ++ f.target = pre ++ (f.target ++ post) := by
  refine ⟨?_, ?_, "Media ", "", by rw [String.append_empty]⟩
  · show (stepSettle c fid (.failure now)).state.currentMediaInfo = _
    simp [stepSettle, h]
  · show (stepSettle c fid (.failure now)).state.isLoading = false
    simp [stepSettle, h]

/-- Witness for claim C7: the fetch for m2 issued on mount over
[m1, m2, m3] rejects; the fallback label contains m2 and loading ends. -/
theorem fetch_failure_fallback_witness :
    ((mkInit ⟨some "m2", ["m1", "m2", "m3"], false⟩).state.pending.find?
        (fun g => g.fid == 0) = some ⟨0, "m2"⟩) ∧
    ((step (mkInit ⟨some "m2", ["m1", "m2", "m3"], false⟩)
        (.settle 0 (.failure "2025-01-01T00:00:00.000Z"))).state.currentMediaInfo
        = some ⟨"Media " ++ "m2", "2025-01-01T00:00:00.000Z"⟩ ∧
     (step (mkInit ⟨some "m2", ["m1", "m2", "m3"], false⟩)
        (.settle 0 (.failure "2025-01-01T00:00:00.000Z"))).state.isLoading
        = false ∧
     ∃ pre post : String, "Media " ++ "m2" = pre ++ ("m2" ++ post)) :=
  ⟨by decide,
   fetch_failure_fallback (mkInit ⟨some "m2", ["m1", "m2", "m3"], false⟩) 0
     ⟨0, "m2"⟩ "2025-01-01T00:00:00.000Z" (by decide)⟩

/-- Characterization of the anchored case-insensitive match against a
pattern made of characters that are their own lower case. -/
theorem zip_ci (u v : List Char) (h : u.length = v.length)
    (hv : ∀ c ∈ v, c.toLower = c) :
    ((List.zipWith charCI u v).all id = true) ↔ u.map Char.toLower = v := by
  induction u generalizing v with
  | nil =>
    cases v with
    | nil => simp
    | cons y ys => simp at h
  | cons a u' ih =>
    cases v with
    | nil => simp at h
    | cons y ys =>
      have hy : y.toLower = y := hv y (by simp)
      have hys : ∀ c ∈ ys, c.toLower = c := fun c hc => hv c (by simp [hc])
      simp only [List.zipWith_cons_cons, List.all_cons, List.map_cons,
        Bool.and_eq_true, List.cons_eq_cons, id]
      rw [ih ys (by simpa using h) hys]
      unfold charCI
      rw [hy, beq_iff_eq]

/-- The anchored case-insensitive match holds exactly when the lowered
string ends with the (already lower-case) pattern. -/
theorem endsWithCI_iff (s p : List Char) (hp : ∀ c ∈ p, c.toLower = c) :
    endsWithCI s p = true ↔ ∃ t, s.map Char.toLower = t ++ p := by
  unfold endsWithCI
  rw [Bool.and_eq_true, decide_eq_true_iff]
  constructor
  · rintro ⟨hle, hall⟩
    have hlen : (s.drop (s.length - p.length)).length = p.length := by
      rw [List.length_drop]
      omega
    have hmap := (zip_ci _ _ hlen hp).mp hall
    refine ⟨(s.take (s.length - p.length)).map Char.toLower, ?_⟩
    calc s.map Char.toLower
        = (s.take (s.length - p.length)
            ++ s.drop (s.length - p.length)).map Char.toLower := by
          rw [List.take_append_drop]
      _ = (s.take (s.length - p.length)).map Char.toLower ++
            (s.drop (s.length - p.length)).map Char.toLower := by
          rw [List.map_append]
      _ = (s.take (s.length - p.length)).map Char.toLower ++ p := by
          rw [hmap]
  · rintro ⟨t, ht⟩
    have hlen2 : s.length = t.length + p.length := by
      have h := congrArg List.length ht
      simpa using h
    refine ⟨by omega, ?_⟩
    apply (zip_ci _ _ (by rw [List.length_drop]; omega) hp).mpr
    have hdrop : (s.map Char.toLower).drop (s.length - p.length) = p := by
      rw [ht, show s.length - p.length = t.length from by omega,
        List.drop_left]
    rw [List.map_drop]
    exact hdrop

/-- Claim C8: the regular-expression classifier of the source marks a
loaded MediaInfo as video exactly when its display label, lowered
character by character, ends with one of .mp4, .webm, .ogg, .mov; every
other label is rendered as an image. -/
theorem classify_video_ends_with (label : String) :
    isVideoMatch label = true ↔
      ∃ e ∈ videoExts, ∃ t, label.data.map Char.toLower = t ++ e := by
  unfold isVideoMatch
  rw [List.any_eq_true]
  have hl : ∀ e ∈ videoExts, ∀ c ∈ e, c.toLower = c := by decide
  constructor
  · rintro ⟨e, he, hend⟩
    exact ⟨e, he, (endsWithCI_iff _ _ (hl e he)).mp hend⟩
  · rintro ⟨e, he, ht⟩
    exact ⟨e, he, (endsWithCI_iff _ _ (hl e he)).mpr ht⟩

/-- Claim C9: dual navigation mode.  When navigation is possible (the
collection is non-empty and the stored index is not -1), a configured
delegate receives the direction and the state (in particular the stored
index) is left unchanged, while without a delegate the controller adopts
the freshly computed index itself and no direction is forwarded. -/
theorem handleNavigate_dual_mode (hasDelegate : Bool) (coll : List String)
    (s : State) (d : Direction)
    (hc : coll.length ≠ 0) (hi : s.currentIndex ≠ -1) :
    (hasDelegate = true →
       handleNavigate hasDelegate coll s d = (s, some d)) ∧
    (hasDelegate = false →
       handleNavigate hasDelegate coll s d
         = ({ s with currentIndex := nextIndex s.currentIndex d coll.length },
            none)) := by
  unfold handleNavigate
  rw [if_neg (not_or.mpr ⟨hc, hi⟩)]
  constructor <;> intro h <;> subst h <;> simp

/-- Witness for claim C9, in delegate mode at index 1 over [m1, m2, m3]. -/
theorem handleNavigate_dual_mode_witness :
    (["m1", "m2", "m3"] : List String).length ≠ 0 ∧
    (⟨1, none, false, [], 0⟩ : State).currentIndex ≠ -1 ∧
    ((true = true →
        handleNavigate true ["m1", "m2", "m3"] ⟨1, none, false, [], 0⟩ .next
          = (⟨1, none, false, [], 0⟩, some .next)) ∧
     (true = false →
        handleNavigate true ["m1", "m2", "m3"] ⟨1, none, false, [], 0⟩ .next
          = ({ (⟨1, none, false, [], 0⟩ : State) with
                currentIndex := nextIndex 1 .next 3 }, none))) :=
  ⟨by decide, by decide,
   handleNavigate_dual_mode true ["m1", "m2", "m3"] ⟨1, none, false, [], 0⟩
     .next (by decide) (by decide)⟩

/-- Claim C10 (implicit): self-managed navigation never refetches
metadata.  With no delegate configured, a navigation event leaves the
loaded metadata, the loading flag, the set of outstanding fetches (no
fetch is issued: pending and the next request id are unchanged) and the
props untouched; only the stored index may change, so the displayed
metadata remains that of the previously fetched identifier until the
identifier prop or the collection changes. -/
theorem navigate_no_refetch (c : Config) (d : Direction)
    (h : c.props.hasDelegate = false) :
    (step c (.navigate d)).state.currentMediaInfo = c.state.currentMediaInfo ∧
    (step c (.navigate d)).state.isLoading = c.state.isLoading ∧
    (step c (.navigate d)).state.pending = c.state.pending ∧
    (step c (.navigate d)).state.nextFid = c.state.nextFid ∧
    (step c (.navigate d)).props = c.props := by
  have hs : (step c (.navigate d)).state =
      (handleNavigate c.props.hasDelegate c.props.allMediaIds c.state d).1 := rfl
  have hp : (step c (.navigate d)).props = c.props := rfl
  refine ⟨?_, ?_, ?_, ?_, hp⟩ <;>
    · rw [hs]
      unfold handleNavigate
      rw [h]
      split <;> rfl

/-- Witness for claim C10: a self-managed navigation step from the mount
with identifier m1 over [m1, m2]. -/
theorem navigate_no_refetch_witness :
    (mkInit ⟨some "m1", ["m1", "m2"], false⟩).props.hasDelegate = false ∧
    ((step (mkInit ⟨some "m1", ["m1", "m2"], false⟩)
        (.navigate .next)).state.currentMediaInfo
        = (mkInit ⟨some "m1", ["m1", "m2"], false⟩).state.currentMediaInfo ∧
     (step (mkInit ⟨some "m1", ["m1", "m2"], false⟩)
        (.navigate .next)).state.isLoading
        = (mkInit ⟨some "m1", ["m1", "m2"], false⟩).state.isLoading ∧
     (step (mkInit ⟨some "m1", ["m1", "m2"], false⟩)
        (.navigate .next)).state.pending
        = (mkInit ⟨some "m1", ["m1", "m2"], false⟩).state.pending ∧
     (step (mkInit ⟨some "m1", ["m1", "m2"], false⟩)
        (.navigate .next)).state.nextFid
        = (mkInit ⟨some "m1", ["m1", "m2"], false⟩).state.nextFid ∧
     (step (mkInit ⟨some "m1", ["m1", "m2"], false⟩)
        (.navigate .next)).props
        = (mkInit ⟨some "m1", ["m1", "m2"], false⟩).props) :=
  ⟨rfl, navigate_no_refetch (mkInit ⟨some "m1", ["m1", "m2"], false⟩)
    .next rfl⟩

end MediaPreview
